import Mathlib

/-!
Verification of the Stylus-Trace trace-analysis pipeline.

Shallow embedding of the repository's diff engine, threshold checker,
stack builder, metrics aggregator, step parser and flame-tree builders.
Machine integers u64/u32 are modelled as Nat, i64 as Int, and f64 as ℚ
(exact arithmetic; the concrete values appearing in the claims are exactly
representable in binary floating point, and no claim depends on rounding).
Rust HashMap / HashSet values are modelled as association lists; where the
source iterates a hash map in arbitrary order the embedding fixes a
deterministic order and all theorems are stated order-insensitively.
-/

namespace StylusTrace

/-- Splits a string at every occurrence of a separator character, keeping
empty pieces, as Rust str split does.  Implemented over the character list
so that it evaluates by kernel reduction. -/
def splitChar (c : Char) (s : String) : List String :=
  (s.data.foldr
    (fun ch acc =>
      match acc with
      | [] => [[ch]]
      | cur :: rest => if ch = c then [] :: cur :: rest else (ch :: cur) :: rest)
    [[]]).map (fun l => String.mk l)

/-- Joins a list of strings with a separator character between consecutive
elements, as Rust join does. -/
def joinChar (c : Char) (parts : List String) : String :=
  match parts with
  | [] => ""
  | p :: rest => rest.foldl (fun acc q => acc ++ String.mk [c] ++ q) p

/-- Uppercases a string character-wise, modelling Rust str to_uppercase on
the ASCII operation names that occur in traces. -/
def asciiUpper (s : String) : String :=
  String.mk (s.data.map Char.toUpper)

/-- Lowercases a string character-wise, modelling Rust str to_lowercase on
the ASCII operation names that occur in traces. -/
def asciiLower (s : String) : String :=
  String.mk (s.data.map Char.toLower)

/-! ## Parser output schema (crates/stylus-trace-studio/src/parser/schema.rs) -/

/-- Source code location hint attached to a hot path. -/
structure SourceHint where
  file : String
  line : Option Nat
  column : Option Nat
  function : Option String
deriving Repr, DecidableEq

/-- A hot path in the execution: collapsed stack string with gas and the
percentage of total gas it accounts for. -/
structure HotPath where
  stack : String
  gas : Nat
  percentage : ℚ
  source_hint : Option SourceHint
deriving Repr, DecidableEq

/-- Summary statistics for HostIO events; by_type models the Rust HashMap
from category name to count as an association list with unique keys. -/
structure HostIoSummary where
  total_calls : Nat
  by_type : List (String × Nat)
  total_hostio_gas : Nat
deriving Repr, DecidableEq

/-- Top-level profile structure, the versioned unit of comparison. -/
structure Profile where
  version : String
  transaction_hash : String
  total_gas : Nat
  hostio_summary : HostIoSummary
  hot_paths : List HotPath
  generated_at : String
deriving Repr, DecidableEq

/-! ## Diff report schema (crates/stylus-trace-studio/src/diff/schema.rs) -/

/-- Gas delta between two profiles. -/
structure GasDelta where
  baseline : Nat
  target : Nat
  absolute_change : Int
  percent_change : ℚ
deriving Repr, DecidableEq

/-- Change in one HostIO category between two profiles. -/
structure HostIOTypeChange where
  baseline : Nat
  target : Nat
  delta : Int
deriving Repr, DecidableEq

/-- HostIO deltas; by_type_changes models the Rust HashMap as an
association list. -/
structure HostIoDelta where
  baseline_total_calls : Nat
  target_total_calls : Nat
  total_calls_change : Int
  total_calls_percent_change : ℚ
  by_type_changes : List (String × HostIOTypeChange)
  baseline_total_gas : Nat
  target_total_gas : Nat
  gas_change : Int
  gas_percent_change : ℚ
deriving Repr, DecidableEq

/-- Comparison of one hot path that is present in both profiles. -/
structure HotPathComparison where
  stack : String
  baseline_gas : Nat
  target_gas : Nat
  gas_change : Int
  percent_change : ℚ
deriving Repr, DecidableEq

/-- Hot path delta: common, disappeared and new paths. -/
structure HotPathsDelta where
  common_paths : List HotPathComparison
  baseline_only : List HotPath
  target_only : List HotPath
deriving Repr, DecidableEq

/-- Metadata snapshot of one input profile. -/
structure ProfileMetadata where
  transaction_hash : String
  total_gas : Nat
  generated_at : String
deriving Repr, DecidableEq

/-- All deltas of a diff report. -/
structure Deltas where
  gas : GasDelta
  hostio : HostIoDelta
  hot_paths : HotPathsDelta
deriving Repr, DecidableEq

/-- One threshold violation. -/
structure ThresholdViolation where
  metric : String
  threshold : ℚ
  actual : ℚ
  severity : String
deriving Repr, DecidableEq

/-- Diff summary with pass/warn/fail status. -/
structure DiffSummary where
  has_regressions : Bool
  violation_count : Nat
  status : String
  warning : Option String
deriving Repr, DecidableEq

/-- Heuristic analysis insight (informational only). -/
structure AnalysisInsight where
  category : String
  description : String
  severity : String
  tag : String
deriving Repr, DecidableEq

/-- Complete diff report comparing baseline and target profiles. -/
structure DiffReport where
  diff_version : String
  generated_at : String
  baseline : ProfileMetadata
  target : ProfileMetadata
  deltas : Deltas
  threshold_violations : List ThresholdViolation
  insights : List AnalysisInsight
  summary : DiffSummary
deriving Repr, DecidableEq

/-- Diff engine error; only the variant reachable from generate_diff is
modelled, the remaining Rust variants wrap out-of-scope file and TOML
errors. -/
inductive DiffError where
  | IncompatibleVersions (baseline target : String)
deriving Repr, DecidableEq

/-! ## Delta computation (crates/stylus-trace-studio/src/diff/normalizer.rs) -/

/-- Calculates percentage change safely: 0 when the baseline is zero,
otherwise change divided by baseline times 100. -/
def safe_percentage (change : Int) (baseline : Nat) : ℚ :=
  if baseline = 0 then
    0
  else
    (change : ℚ) / (baseline : ℚ) * 100

/-- Calculates the gas delta between two profiles. -/
def calculate_gas_delta (baseline target : Nat) : GasDelta :=
  let absolute_change : Int := (target : Int) - (baseline : Int)
  { baseline := baseline
    target := target
    absolute_change := absolute_change
    percent_change := safe_percentage absolute_change baseline }

/-- Calculates changes for each HostIO type over the union of the keys of
both maps; the Rust HashSet iteration order is arbitrary, the embedding
uses first-occurrence order of baseline keys followed by target keys. -/
def calculate_hostio_type_changes (baseline_types target_types : List (String × Nat)) :
    List (String × HostIOTypeChange) :=
  let all_types := ((baseline_types.map Prod.fst) ++ (target_types.map Prod.fst)).dedup
  all_types.filterMap (fun hostio_type =>
    let baseline := ((baseline_types.lookup hostio_type).getD 0)
    let target := ((target_types.lookup hostio_type).getD 0)
    let delta : Int := (target : Int) - (baseline : Int)
    if delta ≠ 0 ∨ baseline > 0 ∨ target > 0 then
      some (hostio_type, { baseline := baseline, target := target, delta := delta })
    else
      none)

/-- Calculates the HostIO delta between two profiles. -/
def calculate_hostio_delta (baseline_summary target_summary : HostIoSummary) : HostIoDelta :=
  let baseline_total_calls := baseline_summary.total_calls
  let target_total_calls := target_summary.total_calls
  let total_calls_change : Int := (target_total_calls : Int) - (baseline_total_calls : Int)
  let baseline_total_gas := baseline_summary.total_hostio_gas
  let target_total_gas := target_summary.total_hostio_gas
  let gas_change : Int := (target_total_gas : Int) - (baseline_total_gas : Int)
  { baseline_total_calls := baseline_total_calls
    target_total_calls := target_total_calls
    total_calls_change := total_calls_change
    total_calls_percent_change := safe_percentage total_calls_change baseline_total_calls
    by_type_changes := calculate_hostio_type_changes baseline_summary.by_type target_summary.by_type
    baseline_total_gas := baseline_total_gas
    target_total_gas := target_total_gas
    gas_change := gas_change
    gas_percent_change := safe_percentage gas_change baseline_total_gas }

/-- Looks up a hot path by stack string, keeping the last occurrence per
key as Rust HashMap collect does when keys repeat. -/
def lookupLastPath (paths : List HotPath) (s : String) : Option HotPath :=
  paths.reverse.find? (fun hp => hp.stack == s)

/-- Compares hot paths between two profiles: common paths with per-path
deltas, paths only in the baseline, and paths only in the target.  The
Rust code iterates the baseline hash map in arbitrary order; the embedding
iterates the distinct baseline stacks in first-occurrence order. -/
def compare_hot_paths (baseline_paths target_paths : List HotPath) : HotPathsDelta :=
  let stack_keys := (baseline_paths.map (fun hp => hp.stack)).dedup
  let common_paths := stack_keys.filterMap (fun s =>
    match lookupLastPath baseline_paths s, lookupLastPath target_paths s with
    | some baseline_path, some target_path =>
        let baseline_gas := baseline_path.gas
        let target_gas := target_path.gas
        let gas_change : Int := (target_gas : Int) - (baseline_gas : Int)
        some { stack := s
               baseline_gas := baseline_gas
               target_gas := target_gas
               gas_change := gas_change
               percent_change := safe_percentage gas_change baseline_gas }
    | _, _ => none)
  let baseline_only := baseline_paths.filter (fun hp => (lookupLastPath target_paths hp.stack).isNone)
  let target_only := target_paths.filter (fun hp => (lookupLastPath baseline_paths hp.stack).isNone)
  { common_paths := common_paths
    baseline_only := baseline_only
    target_only := target_only }

/-- Checks whether two profiles are compatible for comparison: their
schema versions must be equal. -/
def check_compatibility (baseline target : Profile) : Except DiffError Unit :=
  if baseline.version ≠ target.version then
    .error (.IncompatibleVersions baseline.version target.version)
  else
    .ok ()

/-- Checks whether two profiles are identical: same transaction hash and
same total gas. -/
def are_profiles_identical (baseline target : Profile) : Bool :=
  baseline.transaction_hash == target.transaction_hash
    && baseline.total_gas == target.total_gas

/-! ## Diff engine (crates/stylus-trace-studio/src/diff/engine.rs) -/

/-- Generates a complete diff report comparing two profiles.  The report
timestamp comes from the system clock in the source; it is threaded here
as the explicit argument now. -/
def generate_diff (baseline target : Profile) (now : String) : Except DiffError DiffReport :=
  match check_compatibility baseline target with
  | .error e => .error e
  | .ok _ =>
    let baseline_meta : ProfileMetadata :=
      { transaction_hash := baseline.transaction_hash
        total_gas := baseline.total_gas
        generated_at := baseline.generated_at }
    let target_meta : ProfileMetadata :=
      { transaction_hash := target.transaction_hash
        total_gas := target.total_gas
        generated_at := target.generated_at }
    let deltas : Deltas :=
      { gas := calculate_gas_delta baseline.total_gas target.total_gas
        hostio := calculate_hostio_delta baseline.hostio_summary target.hostio_summary
        hot_paths := compare_hot_paths baseline.hot_paths target.hot_paths }
    let summary : DiffSummary :=
      { has_regressions := false
        violation_count := 0
        status := "PASSED"
        warning :=
          if are_profiles_identical baseline target then
            some "Baseline and target profiles are identical"
          else
            none }
    .ok { diff_version := "1.0.0"
          generated_at := now
          baseline := baseline_meta
          target := target_meta
          deltas := deltas
          threshold_violations := []
          insights := []
          summary := summary }

/-! ## Threshold checking (crates/stylus-trace-studio/src/diff/threshold.rs) -/

/-- Gas-related thresholds. -/
structure GasThresholds where
  max_increase_percent : Option ℚ
  max_increase_absolute : Option Nat
deriving Repr, DecidableEq

/-- HostIO-related thresholds; limits models the optional Rust HashMap of
per-type absolute limits as an association list. -/
structure HostIOThresholds where
  max_total_calls_increase_percent : Option ℚ
  limits : Option (List (String × Nat))
deriving Repr, DecidableEq

/-- Hot path thresholds. -/
structure HotPathThresholds where
  warn_individual_increase_percent : Option ℚ
deriving Repr, DecidableEq

/-- Complete threshold configuration. -/
structure ThresholdConfig where
  gas : GasThresholds
  hostio : HostIOThresholds
  hot_paths : Option HotPathThresholds
deriving Repr, DecidableEq

/-- Checks the gas thresholds; the Rust code pushes violations into a
shared vector, the embedding returns the pushed violations in push
order. -/
def check_gas_thresholds (gas_delta : GasDelta) (thresholds : GasThresholds) :
    List ThresholdViolation :=
  (match thresholds.max_increase_percent with
   | some max_percent =>
      if gas_delta.percent_change > max_percent then
        [{ metric := "gas.max_increase_percent"
           threshold := max_percent
           actual := gas_delta.percent_change
           severity := "error" }]
      else []
   | none => []) ++
  (match thresholds.max_increase_absolute with
   | some max_absolute =>
      if gas_delta.absolute_change > 0 ∧ gas_delta.absolute_change.toNat > max_absolute then
        [{ metric := "gas.max_increase_absolute"
           threshold := (max_absolute : ℚ)
           actual := (gas_delta.absolute_change : ℚ)
           severity := "error" }]
      else []
   | none => [])

/-- Checks the HostIO thresholds.  The Rust code iterates the limits hash
map in arbitrary order; the embedding iterates the association list in
list order. -/
def check_hostio_thresholds (hostio_delta : HostIoDelta) (thresholds : HostIOThresholds) :
    List ThresholdViolation :=
  (match thresholds.max_total_calls_increase_percent with
   | some max_percent =>
      if hostio_delta.total_calls_percent_change > max_percent then
        [{ metric := "hostio.max_total_calls_increase_percent"
           threshold := max_percent
           actual := hostio_delta.total_calls_percent_change
           severity := "error" }]
      else []
   | none => []) ++
  (match thresholds.limits with
   | some limits =>
      limits.filterMap (fun entry =>
        let hostio_type := entry.1
        let max_increase := entry.2
        match hostio_delta.by_type_changes.lookup hostio_type with
        | some change =>
            if change.delta > 0 ∧ change.delta.toNat > max_increase then
              some { metric := "hostio.limits." ++ hostio_type ++ "_max_increase"
                     threshold := (max_increase : ℚ)
                     actual := (change.delta : ℚ)
                     severity := "error" }
            else none
        | none => none)
   | none => [])

/-- Checks the hot path thresholds; per-path violations use the distinct
warning severity. -/
def check_hot_path_thresholds (hot_paths_delta : HotPathsDelta)
    (thresholds : HotPathThresholds) : List ThresholdViolation :=
  match thresholds.warn_individual_increase_percent with
  | some max_percent =>
      hot_paths_delta.common_paths.filterMap (fun comparison =>
        if comparison.percent_change > max_percent then
          some { metric := "hot_paths." ++ comparison.stack
                 threshold := max_percent
                 actual := comparison.percent_change
                 severity := "warning" }
        else none)
  | none => []

/-- Creates the summary from the violation list: any error fails, else any
warning warns, else passes; the warning text attached by generate_diff is
not carried over. -/
def create_summary (violations : List ThresholdViolation) : DiffSummary :=
  let error_count := (violations.filter (fun v => v.severity == "error")).length
  let warning_count := (violations.filter (fun v => v.severity == "warning")).length
  let status :=
    if error_count > 0 then "FAILED"
    else if warning_count > 0 then "WARNING"
    else "PASSED"
  { has_regressions := decide (error_count > 0)
    violation_count := violations.length
    status := status
    warning := none }

/-- Checks a diff report against thresholds; the Rust function mutates the
report in place and also returns the violations, the embedding returns
the updated report together with the violations. -/
def check_thresholds (diff : DiffReport) (config : ThresholdConfig) :
    DiffReport × List ThresholdViolation :=
  let violations :=
    check_gas_thresholds diff.deltas.gas config.gas ++
    check_hostio_thresholds diff.deltas.hostio config.hostio ++
    (match config.hot_paths with
     | some hp_thresholds => check_hot_path_thresholds diff.deltas.hot_paths hp_thresholds
     | none => [])
  ({ diff with
      threshold_violations := violations
      summary := create_summary violations },
   violations)

/-! ## HostIO types (crates/stylus-trace-studio/src/parser/hostio.rs) -/

/-- Type of HostIO operation. -/
inductive HostIoType where
  | StorageLoad
  | StorageStore
  | StorageFlush
  | StorageCache
  | Call
  | StaticCall
  | DelegateCall
  | Create
  | Log
  | SelfDestruct
  | AccountBalance
  | BlockHash
  | NativeKeccak256
  | ReadArgs
  | WriteResult
  | MsgValue
  | MsgSender
  | MsgReentrant
  | Other
deriving Repr, DecidableEq

/-- Parses a HostIO type from a lowercased name, as the Rust FromStr
implementation does; unrecognized names map to Other. -/
def HostIoType.fromStr (s : String) : HostIoType :=
  match asciiLower s with
  | "storage_load" | "sload" | "storage_load_bytes32" => .StorageLoad
  | "storage_store" | "sstore" | "storage_store_bytes32" => .StorageStore
  | "storage_flush" | "storage_flush_cache" => .StorageFlush
  | "storage_cache" | "storage_cache_bytes32" => .StorageCache
  | "call" => .Call
  | "staticcall" => .StaticCall
  | "delegatecall" => .DelegateCall
  | "create" | "create2" => .Create
  | "log" | "log0" | "log1" | "log2" | "log3" | "log4" | "emit_log" => .Log
  | "selfdestruct" => .SelfDestruct
  | "balance" | "account_balance" => .AccountBalance
  | "blockhash" | "block_hash" => .BlockHash
  | "native_keccak256" | "keccak256" | "keccak" => .NativeKeccak256
  | "read_args" | "calldatacopy" | "memory_read" => .ReadArgs
  | "write_result" | "return" | "memory_write" => .WriteResult
  | "msg_value" | "callvalue" => .MsgValue
  | "msg_sender" | "caller" => .MsgSender
  | "msg_reentrant" => .MsgReentrant
  | _ => .Other

/-- Maps an uppercased EVM opcode to a HostIO type, or none when the
opcode is not a recognized HostIO operation. -/
def HostIoType.from_opcode (op : String) : Option HostIoType :=
  match asciiUpper op with
  | "SLOAD" => some .StorageLoad
  | "SSTORE" => some .StorageFlush
  | "LOG0" | "LOG1" | "LOG2" | "LOG3" | "LOG4" => some .Log
  | "CALL" => some .Call
  | "STATICCALL" => some .StaticCall
  | "DELEGATECALL" => some .DelegateCall
  | "CREATE" | "CREATE2" => some .Create
  | "SELFDESTRUCT" => some .SelfDestruct
  | "BALANCE" => some .AccountBalance
  | "BLOCKHASH" => some .BlockHash
  | _ => none

/-! ## Trace data (src/src/parser/stylus_trace.rs) -/

/-- One recorded execution step; all fields are serde defaults when
absent. -/
structure ExecutionStep where
  gas_cost : Nat
  op : Option String
  depth : Nat
  function : Option String
  start_ink : Option Nat
  end_ink : Option Nat
  pc : Nat
deriving Repr, DecidableEq

/-- Aggregated HostIO statistics; counts models the Rust HashMap as an
association list. -/
structure HostIoStats where
  counts : List (HostIoType × Nat)
  total_gas : Nat
deriving Repr, DecidableEq

/-- Parsed trace data with all costs standardized to Ink. -/
structure ParsedTrace where
  transaction_hash : String
  total_gas_used : Nat
  execution_steps : List ExecutionStep
  hostio_stats : HostIoStats
deriving Repr, DecidableEq

/-! ## Stack builder (crates/stylus-trace-studio/src/aggregator/stack_builder.rs) -/

/-- A single collapsed stack entry. -/
structure CollapsedStack where
  stack : String
  weight : Nat
  last_pc : Option Nat
deriving Repr, DecidableEq

/-- Maps a HostIO type to its human-readable label. -/
def map_hostio_to_label (io_type : HostIoType) : String :=
  match io_type with
  | .StorageLoad => "storage_load_bytes32"
  | .StorageStore => "storage_store_bytes32"
  | .StorageFlush => "storage_flush_cache"
  | .StorageCache => "storage_cache"
  | .Call => "call"
  | .StaticCall => "staticcall"
  | .DelegateCall => "delegatecall"
  | .Create => "create"
  | .Log => "emit_log"
  | .SelfDestruct => "selfdestruct"
  | .AccountBalance => "account_balance"
  | .BlockHash => "block_hash"
  | .NativeKeccak256 => "native_keccak256"
  | .ReadArgs => "read_args"
  | .WriteResult => "write_result"
  | .MsgValue => "msg_value"
  | .MsgSender => "msg_sender"
  | .MsgReentrant => "msg_reentrant"
  | .Other => "other"

/-- Derives the operation label of a step: the function name or opcode,
taking the last piece of formats like call;SSTORE, mapped through the
opcode table when it is a recognized opcode and kept raw otherwise. -/
def step_operation (step : ExecutionStep) : String :=
  let raw_op := ((step.function).orElse (fun _ => step.op)).getD "unknown"
  let op_part := ((splitChar ';' raw_op).getLast?).getD raw_op
  match HostIoType.from_opcode op_part with
  | some t => map_hostio_to_label t
  | none => raw_op

/-- Adds a cost to the weight bucket of a stack string and records the
step's pc as the bucket's last-seen pc, inserting a fresh bucket at the
end when the key is new (Rust HashMap entry semantics; iteration order of
the map is arbitrary in the source, insertion order here). -/
def bumpStackMap (m : List (String × Nat × Nat)) (key : String) (cost pc : Nat) :
    List (String × Nat × Nat) :=
  match m with
  | [] => [(key, cost, pc)]
  | (k, w, p) :: rest =>
      if k = key then (k, w + cost, pc) :: rest
      else (k, w, p) :: bumpStackMap rest key cost pc

/-- Processes one execution step: truncates the call stack when depth
decreased, pushes synthetic call frames when depth increased, forms the
full path ending in the step's operation label, and accumulates the
step's cost under that path. -/
def build_step (state : List (String × Nat × Nat) × List String) (step : ExecutionStep) :
    List (String × Nat × Nat) × List String :=
  let stack_map := state.1
  let call_stack := state.2
  let operation := step_operation step
  let current_depth := step.depth
  let call_stack :=
    if current_depth < call_stack.length then call_stack.take current_depth else call_stack
  let call_stack := call_stack ++ List.replicate (current_depth - call_stack.length) "call"
  let stack_str :=
    if call_stack.isEmpty then operation
    else joinChar ';' call_stack ++ ";" ++ operation
  (bumpStackMap stack_map stack_str step.gas_cost step.pc, call_stack)

/-- Inserts a collapsed stack into a list sorted by weight descending,
after all entries of weight at least its own, which is exactly where the
stable Rust sort_by leaves it. -/
def insertByWeightDesc (s : CollapsedStack) : List CollapsedStack → List CollapsedStack
  | [] => [s]
  | t :: rest =>
      if t.weight ≤ s.weight then s :: t :: rest
      else t :: insertByWeightDesc s rest

/-- Stable sort by weight descending, modelling Rust sort_by with the
reversed weight comparator; stability makes the output independent of the
sorting algorithm. -/
def sort_by_weight_desc (l : List CollapsedStack) : List CollapsedStack :=
  l.foldr insertByWeightDesc []

/-- Builds collapsed stacks from a parsed trace: replays the steps
tracking the call stack, aggregates costs per unique path, and sorts the
result by weight descending. -/
def build_collapsed_stacks (parsed_trace : ParsedTrace) : List CollapsedStack :=
  let final_state := parsed_trace.execution_steps.foldl build_step ([], [])
  let unsorted := final_state.1.map (fun e => CollapsedStack.mk e.1 e.2.1 (some e.2.2))
  sort_by_weight_desc unsorted

/-! ## Metrics aggregator (crates/stylus-trace-studio/src/aggregator/metrics.rs) -/

/-- Builds the lowercase hex digit for a value below 16. -/
def hexDigit (n : Nat) : Char :=
  if n < 10 then Char.ofNat (48 + n) else Char.ofNat (87 + n)

/-- Builds the lowercase hex digits of a number, most significant first;
the fuel argument only bounds the recursion and any fuel of at least n
gives the same digits. -/
def toHexCore (fuel n : Nat) : List Char :=
  match fuel with
  | 0 => []
  | fuel' + 1 => if n = 0 then [] else toHexCore fuel' (n / 16) ++ [hexDigit (n % 16)]

/-- Formats a program counter the way the Rust format string 0x{:x}
does. -/
def toHexString (n : Nat) : String :=
  if n = 0 then "0x0" else "0x" ++ String.mk (toHexCore n n)

/-- Creates a HotPath from a CollapsedStack, computing the percentage
against the supplied denominator, with zero when the denominator is
zero. -/
def create_hot_path (stack : CollapsedStack) (denominator : Nat) : HotPath :=
  { stack := stack.stack
    gas := stack.weight
    percentage :=
      if denominator > 0 then (stack.weight : ℚ) / (denominator : ℚ) * 100 else 0
    source_hint := stack.last_pc.map (fun pc =>
      { file := "unknown"
        line := none
        column := none
        function := some (toHexString pc) }) }

/-- Calculates the top_n hot paths from collapsed stacks; the percentage
denominator is the sum of the weights of the full input list, and the
total_gas argument is ignored exactly as the source ignores its
underscore-named parameter. -/
def calculate_hot_paths (stackList : List CollapsedStack) (total_gas top_n : Nat) :
    List HotPath :=
  let _ := total_gas
  let execution_total := (stackList.map (fun s => s.weight)).sum
  (stackList.take top_n).map (fun stack => create_hot_path stack execution_total)

/-- Gas distribution statistics. -/
structure GasDistribution where
  total_gas : Nat
  stack_count : Nat
  mean_gas_per_stack : Nat
  median_gas_per_stack : Nat
  top_10_percent_percentage : ℚ
deriving Repr, DecidableEq

/-- Inserts a number into an ascending sorted list. -/
def insertAsc (x : Nat) : List Nat → List Nat
  | [] => [x]
  | y :: ys => if x ≤ y then x :: y :: ys else y :: insertAsc x ys

/-- Sorts a list of numbers ascending, modelling Rust sort_unstable on
u64 values, whose output is the unique sorted permutation. -/
def sortWeightsAsc (l : List Nat) : List Nat :=
  l.foldr insertAsc []

/-- Calculates gas distribution statistics: count, total, truncating
mean, the element at index length / 2 of the ascending weight sort as
median, and the share of total weight held by the first ceil(count / 10)
stacks of the input list.  The source computes that count as
(count as f64 * 0.1).ceil(); the embedding uses the exact ceiling of
count / 10, which agrees for all list lengths that fit in memory.  Empty
input returns the all-zero default. -/
def calculate_gas_distribution (stackList : List CollapsedStack) : GasDistribution :=
  if stackList.isEmpty then
    { total_gas := 0
      stack_count := 0
      mean_gas_per_stack := 0
      median_gas_per_stack := 0
      top_10_percent_percentage := 0 }
  else
    let total := (stackList.map (fun s => s.weight)).sum
    let count := stackList.length
    let mean := total / (max count 1)
    let weights := sortWeightsAsc (stackList.map (fun s => s.weight))
    let median := if weights.isEmpty then 0 else weights.getD (weights.length / 2) 0
    let top_10_percent_count := (count + 9) / 10
    let top_10_percent_gas := ((stackList.take top_10_percent_count).map (fun s => s.weight)).sum
    { total_gas := total
      stack_count := count
      mean_gas_per_stack := mean
      median_gas_per_stack := median
      top_10_percent_percentage :=
        if total > 0 then (top_10_percent_gas : ℚ) / (total : ℚ) * 100 else 0 }

/-! ## Step parsing (src/src/parser/stylus_trace.rs) -/

/-- Parse error; only the variant reachable from parse_steps_array is
modelled. -/
inductive ParseError where
  | InvalidFormat (msg : String)
deriving Repr, DecidableEq

/-- JSON value with integral numbers, sufficient for the step objects the
parser consumes; non-integral numbers are rejected by every u64/u32 field
anyway. -/
inductive Json where
  | null
  | bool (b : Bool)
  | num (n : Int)
  | str (s : String)
  | arr (elems : List Json)
  | obj (fields : List (String × Json))

/-- Finds the first of the candidate field names present in an object,
modelling a serde field with an alias. -/
def getFieldNamed (fields : List (String × Json)) : List String → Option Json
  | [] => none
  | n :: rest =>
      match fields.lookup n with
      | some j => some j
      | none => getFieldNamed fields rest

/-- Decodes a serde u64: a non-negative integral number below 2 to the
64. -/
def serdeU64 (j : Json) : Option Nat :=
  match j with
  | .num n => if 0 ≤ n ∧ n < (2 : Int) ^ 64 then some n.toNat else none
  | _ => none

/-- Decodes a serde u32: a non-negative integral number below 2 to the
32. -/
def serdeU32 (j : Json) : Option Nat :=
  match j with
  | .num n => if 0 ≤ n ∧ n < (2 : Int) ^ 32 then some n.toNat else none
  | _ => none

/-- Decodes a serde Option String: a string or null. -/
def serdeOptString (j : Json) : Option (Option String) :=
  match j with
  | .str s => some (some s)
  | .null => some none
  | _ => none

/-- Decodes a serde Option u64: a number or null. -/
def serdeOptU64 (j : Json) : Option (Option Nat) :=
  match j with
  | .null => some none
  | .num n => if 0 ≤ n ∧ n < (2 : Int) ^ 64 then some (some n.toNat) else none
  | _ => none

/-- Decodes one field with serde default semantics: an absent field takes
the default, a present field must decode. -/
def fieldWithDefault {α : Type} (fields : List (String × Json)) (names : List String)
    (dflt : α) (decode : Json → Option α) : Option α :=
  match getFieldNamed fields names with
  | none => some dflt
  | some j => decode j

/-- Deserializes one ExecutionStep from JSON following the serde derive
on the Rust struct: every field defaulted when absent, gas_cost aliased
as gasCost, op aliased as name, start_ink and end_ink renamed to startInk
and endInk; a non-object value or an ill-typed present field fails. -/
def parseExecutionStep (j : Json) : Option ExecutionStep :=
  match j with
  | .obj fields => do
      let gas_cost ← fieldWithDefault fields ["gas_cost", "gasCost"] 0 serdeU64
      let op ← fieldWithDefault fields ["op", "name"] none serdeOptString
      let depth ← fieldWithDefault fields ["depth"] 0 serdeU32
      let function ← fieldWithDefault fields ["function"] none serdeOptString
      let start_ink ← fieldWithDefault fields ["startInk"] none serdeOptU64
      let end_ink ← fieldWithDefault fields ["endInk"] none serdeOptU64
      let pc ← fieldWithDefault fields ["pc"] 0 serdeU64
      some { gas_cost := gas_cost
             op := op
             depth := depth
             function := function
             start_ink := start_ink
             end_ink := end_ink
             pc := pc }
  | _ => none

/-- Parses an array of execution steps: per-step failures are logged and
dropped in the source, so the surviving steps are the filterMap of the
array; if the array was non-empty and every step failed, the whole
operation fails with an invalid-format error. -/
def parse_steps_array (steps_array : List Json) : Except ParseError (List ExecutionStep) :=
  let steps := steps_array.filterMap parseExecutionStep
  if steps.isEmpty ∧ ¬ steps_array.isEmpty then
    .error (.InvalidFormat "All execution steps failed to parse")
  else
    .ok steps

/-! ## Flame tree (crates/stylus-trace-studio/src/flamegraph/generator.rs) -/

/-- Categories for flamegraph nodes. -/
inductive NodeCategory where
  | StorageExpensive
  | StorageNormal
  | Crypto
  | Memory
  | Call
  | System
  | UserCode
  | Root
deriving Repr, DecidableEq

/-- Maps a structured HostIoType to a visual category. -/
def NodeCategory.from_hostio (io_type : HostIoType) : NodeCategory :=
  match io_type with
  | .StorageStore | .StorageFlush => .StorageExpensive
  | .StorageLoad | .StorageCache => .StorageNormal
  | .NativeKeccak256 => .Crypto
  | .ReadArgs | .WriteResult => .Memory
  | .Call | .StaticCall | .DelegateCall | .Create => .Call
  | .Log | .AccountBalance | .BlockHash | .MsgValue
  | .MsgSender | .MsgReentrant | .SelfDestruct => .System
  | .Other => .UserCode

/-- Tests whether the second string occurs as a contiguous substring of
the first, modelling Rust str contains; implemented over character lists
so that it evaluates by kernel reduction. -/
def charsStartWith : List Char → List Char → Bool
  | _, [] => true
  | [], _ :: _ => false
  | a :: rest, b :: bs => a == b && charsStartWith rest bs

/-- Helper for substring search: tries every suffix. -/
def charsContain (l sub : List Char) : Bool :=
  charsStartWith l sub ||
    (match l with
     | [] => false
     | _ :: rest => charsContain rest sub)

/-- Substring test on strings. -/
def strContains (s pattern : String) : Bool :=
  charsContain s.data pattern.data

/-- Classifies a node from its name: root, then the structured HostIO
vocabulary, then a substring heuristic for system names, else user
code. -/
def NodeCategory.from_name (name : String) : NodeCategory :=
  if name = "root" then
    .Root
  else
    let io_type := HostIoType.fromStr name
    if io_type ≠ .Other then
      NodeCategory.from_hostio io_type
    else if strContains name "Stylus" || strContains name "host" then
      .System
    else
      .UserCode

/-- Internal node of the single-profile flame tree; children model the
Rust HashMap from child label to child node as an association list in
insertion order. -/
inductive Node where
  | mk (name : String) (value : Nat) (pc : Option Nat) (category : NodeCategory)
      (children : List (String × Node))

/-- Creates a fresh node with zero value and no children. -/
def Node.new (name : String) : Node :=
  .mk name 0 none (NodeCategory.from_name name) []

/-- Replaces the value under a key in an association list, appending a
fresh entry at the end when the key is absent (Rust HashMap entry
semantics with insertion order fixed). -/
def setAssoc {α : Type} (l : List (String × α)) (key : String) (a : α) : List (String × α) :=
  match l with
  | [] => [(key, a)]
  | (k, c) :: rest => if k = key then (k, a) :: rest else (k, c) :: setAssoc rest key a

/-- Inserts one path with its weight into the tree, accumulating the
weight at every node along the path and recording the pc when present;
each missing child is created on the way down. -/
def Node.insert (n : Node) (stack : List String) (value : Nat) (pc : Option Nat) : Node :=
  match n with
  | .mk name nodeValue nodePc cat children =>
    let value1 := nodeValue + value
    let pc1 := if pc.isSome then pc else nodePc
    match stack with
    | [] => .mk name value1 pc1 cat children
    | head :: tail =>
        let child := (children.lookup head).getD (Node.new head)
        .mk name value1 pc1 cat (setAssoc children head (child.insert tail value pc))

/-- Returns the labels of the direct children of a node. -/
def Node.childKeys : Node → List String
  | .mk _ _ _ _ children => children.map Prod.fst

/-- Tree-building pass of generate_flamegraph: every collapsed path is
split on semicolons and inserted into a root node as is, with no
treatment of a leading root segment.  The surrounding function rejects an
empty stack list and then renders this tree to SVG; rendering is out of
scope. -/
def build_flame_tree (stackList : List CollapsedStack) : Node :=
  stackList.foldl
    (fun root stack => root.insert (splitChar ';' stack.stack) stack.weight stack.last_pc)
    (Node.new "root")

/-! ## Diff flame tree (crates/stylus-trace-studio/src/flamegraph/diff_generator.rs) -/

/-- Internal node of the merged comparative flame tree. -/
inductive DiffNode where
  | mk (name : String) (baseline_value target_value : Nat) (children : List (String × DiffNode))

/-- Creates a fresh diff node with zero values and no children. -/
def DiffNode.new (name : String) : DiffNode :=
  .mk name 0 0 []

/-- Inserts one baseline path with its weight, accumulating the baseline
value along the path. -/
def DiffNode.insert_baseline (n : DiffNode) (stack : List String) (value : Nat) : DiffNode :=
  match n with
  | .mk name b t children =>
    match stack with
    | [] => .mk name (b + value) t children
    | head :: tail =>
        let child := (children.lookup head).getD (DiffNode.new head)
        .mk name (b + value) t (setAssoc children head (child.insert_baseline tail value))

/-- Inserts one target path with its weight, accumulating the target
value along the path. -/
def DiffNode.insert_target (n : DiffNode) (stack : List String) (value : Nat) : DiffNode :=
  match n with
  | .mk name b t children =>
    match stack with
    | [] => .mk name b (t + value) children
    | head :: tail =>
        let child := (children.lookup head).getD (DiffNode.new head)
        .mk name b (t + value) (setAssoc children head (child.insert_target tail value))

/-- Returns the labels of the direct children of a diff node. -/
def DiffNode.childKeys : DiffNode → List String
  | .mk _ _ _ children => children.map Prod.fst

/-- Drops a single leading root segment from a split path, as both
comparative insertion passes do before inserting. -/
def strip_leading_root (parts : List String) : List String :=
  if parts.head? = some "root" then parts.tail else parts

/-- Tree-building pass of generate_diff_flamegraph: both stack sets are
split on semicolons, a single leading root segment is skipped when
present, and the paths are inserted into one merged tree, baseline pass
first; rendering is out of scope. -/
def build_diff_flame_tree (baseline_stacks target_stacks : List CollapsedStack) : DiffNode :=
  let root := baseline_stacks.foldl
    (fun r stack => r.insert_baseline (strip_leading_root (splitChar ';' stack.stack)) stack.weight)
    (DiffNode.new "root")
  target_stacks.foldl
    (fun r stack => r.insert_target (strip_leading_root (splitChar ';' stack.stack)) stack.weight)
    root

/-! ## Concrete inputs used by witnesses and counterexamples -/

/-- Builds a minimal execution step with an operation label, a depth and
a cost. -/
def mkStep (label : String) (d cost : Nat) : ExecutionStep :=
  { gas_cost := cost
    op := some label
    depth := d
    function := none
    start_ink := none
    end_ink := none
    pc := 0 }

/-- Trace with depths 0, 1, 1, 0 and operation labels A, B, C, D, the
step sequence named by the specification. -/
def exTraceABCD : ParsedTrace :=
  { transaction_hash := "0xabc"
    total_gas_used := 10
    execution_steps := [mkStep "A" 0 4, mkStep "B" 1 3, mkStep "C" 1 2, mkStep "D" 0 1]
    hostio_stats := { counts := [], total_gas := 0 } }

/-- Empty HostIO summary. -/
def emptyHostIoSummary : HostIoSummary :=
  { total_calls := 0, by_type := [], total_hostio_gas := 0 }

/-- Minimal profile with schema version 1.0.0. -/
def exProfileV1 : Profile :=
  { version := "1.0.0"
    transaction_hash := "0xaaa"
    total_gas := 100
    hostio_summary := emptyHostIoSummary
    hot_paths := []
    generated_at := "t0" }

/-- Minimal profile with schema version 2.0.0. -/
def exProfileV2 : Profile :=
  { exProfileV1 with version := "2.0.0", transaction_hash := "0xbbb" }

/-- Four collapsed stacks with the even-sized weight multiset 4, 3, 2,
1. -/
def exFourStacks : List CollapsedStack :=
  [⟨"s1", 4, none⟩, ⟨"s2", 3, none⟩, ⟨"s3", 2, none⟩, ⟨"s4", 1, none⟩]

/-- Three collapsed stacks with an odd-sized weight multiset. -/
def exThreeStacks : List CollapsedStack :=
  [⟨"s1", 9, none⟩, ⟨"s2", 5, none⟩, ⟨"s3", 2, none⟩]

/-- Two collapsed stacks used by the hot-path witness. -/
def exTwoStacks : List CollapsedStack :=
  [⟨"a", 3, none⟩, ⟨"b", 1, none⟩]

/-- A JSON value that fails to deserialize as a step. -/
def exBadStep : Json := .str "not a step"

/-- A JSON step object that deserializes successfully. -/
def exGoodStep : Json := .obj [("gas_cost", .num 7), ("depth", .num 1)]

/-- Concrete diff report with the spec's 150000 to 210000 gas change. -/
def exDiffReport : DiffReport :=
  { diff_version := "1.0.0"
    generated_at := "t2"
    baseline := { transaction_hash := "0xaaa", total_gas := 150000, generated_at := "t0" }
    target := { transaction_hash := "0xbbb", total_gas := 210000, generated_at := "t1" }
    deltas :=
      { gas := calculate_gas_delta 150000 210000
        hostio := calculate_hostio_delta emptyHostIoSummary emptyHostIoSummary
        hot_paths := compare_hot_paths [] [] }
    threshold_violations := []
    insights := []
    summary := { has_regressions := false, violation_count := 0, status := "PASSED", warning := none } }

/-- Concrete threshold configuration with a 10 percent gas ceiling. -/
def exThresholdConfig : ThresholdConfig :=
  { gas := { max_increase_percent := some 10, max_increase_absolute := none }
    hostio := { max_total_calls_increase_percent := none, limits := none }
    hot_paths := none }

/-- A collapsed stack whose path starts with the root label. -/
def exRootStack : CollapsedStack := ⟨"root;foo", 5, none⟩

/-- A collapsed stack whose path does not start with the root label. -/
def exBarStack : CollapsedStack := ⟨"bar", 3, none⟩

/-! ## Shared lemmas -/

/-- Zero change gives zero percentage for every baseline. -/
theorem safe_percentage_zero (b : Nat) : safe_percentage 0 b = 0 := by
  unfold safe_percentage
  split <;> simp

/-! ## C4 -/

/-- C4: safe_percentage of any change against a zero baseline is 0, never
a division; against every positive baseline it is change / baseline times
100; in particular safe_percentage 50 100 = 50 and
safe_percentage (-25) 100 = -25. -/
theorem C4_safe_percentage_spec (x : Int) (b : Nat) :
    safe_percentage x 0 = 0 ∧
    (0 < b → safe_percentage x b = (x : ℚ) / (b : ℚ) * 100) ∧
    safe_percentage 50 100 = 50 ∧
    safe_percentage (-25) 100 = -25 := by
  refine ⟨by simp [safe_percentage], fun hb => ?_, by norm_num [safe_percentage],
    by norm_num [safe_percentage]⟩
  unfold safe_percentage
  rw [if_neg (Nat.pos_iff_ne_zero.mp hb)]

/-- C4 witness: the positive-baseline clause applied at change 7 and
baseline 3. -/
theorem C4_safe_percentage_spec_witness :
    0 < 3 ∧ safe_percentage 7 3 = (7 : ℚ) / 3 * 100 :=
  ⟨by norm_num, (C4_safe_percentage_spec 7 3).2.1 (by norm_num)⟩

/-! ## C1 -/

/-- C1: generate_diff fails with an incompatible-versions error carrying
both version strings exactly when the versions differ, producing no
report; with byte-equal versions it always produces a report and never a
compatibility error. -/
theorem C1_generate_diff_version_gate (baseline target : Profile) (now : String) :
    (baseline.version ≠ target.version →
      generate_diff baseline target now =
        .error (.IncompatibleVersions baseline.version target.version)) ∧
    (baseline.version = target.version →
      ∃ report, generate_diff baseline target now = .ok report) := by
  constructor
  · intro h
    unfold generate_diff check_compatibility
    rw [if_pos h]
  · intro h
    unfold generate_diff check_compatibility
    rw [if_neg (by simp [h])]
    exact ⟨_, rfl⟩

/-- C1 witness: versions 1.0.0 against 2.0.0 fail with the error carrying
both strings, and equal versions produce a report. -/
theorem C1_generate_diff_version_gate_witness :
    generate_diff exProfileV1 exProfileV2 "t1" =
      .error (.IncompatibleVersions "1.0.0" "2.0.0") ∧
    ∃ report, generate_diff exProfileV1 exProfileV1 "t1" = .ok report :=
  ⟨(C1_generate_diff_version_gate exProfileV1 exProfileV2 "t1").1 (by decide),
   (C1_generate_diff_version_gate exProfileV1 exProfileV1 "t1").2 rfl⟩

/-! ## C10 -/

/-- C10: check_thresholds replaces the report's summary with one whose
warning field is none, so any identical-profiles warning attached by
generate_diff is discarded whether or not a violation fired. -/
theorem C10_check_thresholds_clears_warning (diff : DiffReport) (config : ThresholdConfig) :
    ((check_thresholds diff config).1).summary =
      create_summary ((check_thresholds diff config).2) ∧
    ((check_thresholds diff config).1).summary.warning = none := by
  exact ⟨rfl, rfl⟩

/-! ## C5 -/

/-- C5 counterexample: over depths 0, 1, 1, 0 with labels A, B, C, D the
stack builder does not produce the path A;B claimed by the
specification. -/
theorem C5_counterexample_no_path_A_B :
    "A;B" ∉ (build_collapsed_stacks exTraceABCD).map (fun s => s.stack) := by
  decide

/-- C5 amended: over depths 0, 1, 1, 0 with labels A, B, C, D the stack
builder produces exactly the four distinct collapsed paths A, call;B,
call;C and D with their step costs: the depth increase pushes a synthetic
call frame, not the previous operation label, and the depth-0 step after
the depth-1 steps truncates the stack back to empty before D is
appended. -/
theorem C5_amended_stack_paths :
    (build_collapsed_stacks exTraceABCD).map (fun s => (s.stack, s.weight)) =
      [("A", 4), ("call;B", 3), ("call;C", 2), ("D", 1)] := by
  decide

/-! ## C7 -/

/-- C7 counterexample: on the even-sized weight multiset 1, 2, 3, 4 the
median is not the lower-middle element of the weight-sorted values. -/
theorem C7_counterexample_median_not_lower_middle :
    (calculate_gas_distribution exFourStacks).median_gas_per_stack ≠
      (sortWeightsAsc (exFourStacks.map (fun s => s.weight))).getD
        (exFourStacks.length / 2 - 1) 0 := by
  decide

/-! ## C9 -/

/-- C9 counterexample: the single-profile insertion pass performs no
root-segment skip, so a collapsed path whose leading segment equals the
root label creates a root-labeled child directly under the root node. -/
theorem C9_counterexample_single_pass_root_child :
    "root" ∈ (build_flame_tree [exRootStack]).childKeys := by
  decide

/-! ## C8 -/

/-- C8: during step extraction each individually unparseable step is
dropped, so any array with at least one parseable step succeeds with
exactly the surviving steps in order; a non-empty array in which every
step fails to parse fails as a whole with an invalid-format error. -/
theorem C8_parse_steps_array_tolerance (steps_array : List Json) :
    (steps_array ≠ [] → (∀ j ∈ steps_array, parseExecutionStep j = none) →
      parse_steps_array steps_array =
        .error (.InvalidFormat "All execution steps failed to parse")) ∧
    ((∃ j ∈ steps_array, (parseExecutionStep j).isSome) →
      parse_steps_array steps_array = .ok (steps_array.filterMap parseExecutionStep)) := by
  constructor
  · intro hne hall
    have hnil : steps_array.filterMap parseExecutionStep = [] := by
      rw [List.filterMap_eq_nil_iff]
      exact hall
    unfold parse_steps_array
    rw [if_pos]
    simp [hnil, hne]
  · rintro ⟨j, hj, hsome⟩
    obtain ⟨step, hstep⟩ := Option.isSome_iff_exists.mp hsome
    have hmem : step ∈ steps_array.filterMap parseExecutionStep :=
      List.mem_filterMap.mpr ⟨j, hj, hstep⟩
    have hne2 : ¬ (steps_array.filterMap parseExecutionStep).isEmpty := by
      intro habs
      rw [List.isEmpty_iff] at habs
      rw [habs] at hmem
      exact (List.not_mem_nil step) hmem
    unfold parse_steps_array
    rw [if_neg]
    intro ⟨h1, _⟩
    exact hne2 h1

/-- C8 witness: a singleton array whose only step fails parses to the
invalid-format error, and a two-element array with one bad and one good
step succeeds with the surviving step. -/
theorem C8_parse_steps_array_tolerance_witness :
    parse_steps_array [exBadStep] =
      .error (.InvalidFormat "All execution steps failed to parse") ∧
    parse_steps_array [exBadStep, exGoodStep] =
      .ok ([exBadStep, exGoodStep].filterMap parseExecutionStep) := by
  constructor
  · exact (C8_parse_steps_array_tolerance [exBadStep]).1 (by simp)
      (by intro j hj; rw [List.mem_singleton] at hj; rw [hj]; rfl)
  · exact (C8_parse_steps_array_tolerance [exBadStep, exGoodStep]).2
      ⟨exGoodStep, by simp, rfl⟩

/-- Inserting into the ascending sort grows the length by one. -/
theorem length_insertAsc (x : Nat) (l : List Nat) :
    (insertAsc x l).length = l.length + 1 := by
  induction l with
  | nil => rfl
  | cons y ys ih =>
      unfold insertAsc
      split
      · simp
      · simp [ih]

/-- The ascending sort preserves length. -/
theorem length_sortWeightsAsc (l : List Nat) :
    (sortWeightsAsc l).length = l.length := by
  induction l with
  | nil => rfl
  | cons x xs ih =>
      show (insertAsc x (sortWeightsAsc xs)).length = xs.length + 1
      rw [length_insertAsc, ih]

/-- Members of the insertion are the inserted element or old members. -/
theorem mem_insertAsc (a x : Nat) (l : List Nat) (h : a ∈ insertAsc x l) :
    a = x ∨ a ∈ l := by
  induction l with
  | nil =>
      simp [insertAsc] at h
      left
      exact h
  | cons y ys ih =>
      unfold insertAsc at h
      split at h
      · simpa using h
      · simp at h
        rcases h with h | h
        · right
          simp [h]
        · rcases ih h with h2 | h2
          · left
            exact h2
          · right
            simp [h2]

/-- Insertion preserves sortedness. -/
theorem sorted_insertAsc (x : Nat) (l : List Nat) (h : l.Sorted (· ≤ ·)) :
    (insertAsc x l).Sorted (· ≤ ·) := by
  induction l with
  | nil => simp [insertAsc]
  | cons y ys ih =>
      rw [List.sorted_cons] at h
      obtain ⟨h1, h2⟩ := h
      unfold insertAsc
      split
      · rename_i hxy
        rw [List.sorted_cons]
        refine ⟨?_, List.sorted_cons.mpr ⟨h1, h2⟩⟩
        intro b hb
        simp at hb
        rcases hb with hb | hb
        · rw [hb]
          exact hxy
        · exact le_trans hxy (h1 b hb)
      · rename_i hxy
        rw [List.sorted_cons]
        refine ⟨?_, ih h2⟩
        intro b hb
        rcases mem_insertAsc b x ys hb with hb2 | hb2
        · rw [hb2]
          omega
        · exact h1 b hb2

/-- The weight sort is ascending. -/
theorem sorted_sortWeightsAsc (l : List Nat) : (sortWeightsAsc l).Sorted (· ≤ ·) := by
  induction l with
  | nil => simp [sortWeightsAsc]
  | cons x xs ih => exact sorted_insertAsc x (sortWeightsAsc xs) ih

/-! ## C7 amended -/

/-- C7 amended: the distribution statistics of the empty input are all
zero, with no division error; for odd-sized input of length 2k + 1 the
median is the middle element, at index k of the ascending weight sort;
for even-sized input of length 2k the median is the upper-middle element,
at index k, which is at least the lower-middle element at index k - 1 —
not the lower-middle element and not an average of the two middles. -/
theorem C7_amended_median_policy (stackList : List CollapsedStack) (k : Nat) :
    calculate_gas_distribution [] =
      { total_gas := 0
        stack_count := 0
        mean_gas_per_stack := 0
        median_gas_per_stack := 0
        top_10_percent_percentage := 0 } ∧
    (stackList.length = 2 * k + 1 →
      (calculate_gas_distribution stackList).median_gas_per_stack =
        (sortWeightsAsc (stackList.map (fun s => s.weight))).getD k 0) ∧
    (stackList.length = 2 * k → 0 < k →
      (calculate_gas_distribution stackList).median_gas_per_stack =
        (sortWeightsAsc (stackList.map (fun s => s.weight))).getD k 0 ∧
      (sortWeightsAsc (stackList.map (fun s => s.weight))).getD (k - 1) 0 ≤
        (sortWeightsAsc (stackList.map (fun s => s.weight))).getD k 0) := by
  refine ⟨rfl, ?_, ?_⟩
  · intro hlen
    have hne : stackList.isEmpty = false := by
      cases stackList with
      | nil => simp at hlen
      | cons a as => rfl
    have hwlen : (sortWeightsAsc (stackList.map (fun s => s.weight))).length = 2 * k + 1 := by
      rw [length_sortWeightsAsc, List.length_map, hlen]
    have hwne : (sortWeightsAsc (stackList.map (fun s => s.weight))).isEmpty = false := by
      cases hw : sortWeightsAsc (stackList.map (fun s => s.weight)) with
      | nil => rw [hw] at hwlen; simp at hwlen
      | cons b bs => rfl
    have hidx : (2 * k + 1) / 2 = k := by omega
    simp only [calculate_gas_distribution, hne, Bool.false_eq_true, if_false, hwne, hwlen, hidx]
  · intro hlen hk
    have hne : stackList.isEmpty = false := by
      cases stackList with
      | nil => simp at hlen; omega
      | cons a as => rfl
    have hwlen : (sortWeightsAsc (stackList.map (fun s => s.weight))).length = 2 * k := by
      rw [length_sortWeightsAsc, List.length_map, hlen]
    have hwne : (sortWeightsAsc (stackList.map (fun s => s.weight))).isEmpty = false := by
      cases hw : sortWeightsAsc (stackList.map (fun s => s.weight)) with
      | nil => rw [hw] at hwlen; simp at hwlen; omega
      | cons b bs => rfl
    have hidx : 2 * k / 2 = k := by omega
    constructor
    · simp only [calculate_gas_distribution, hne, Bool.false_eq_true, if_false, hwne, hwlen, hidx]
    · have h1 : k - 1 < (sortWeightsAsc (stackList.map (fun s => s.weight))).length := by
        rw [hwlen]; omega
      have h2 : k < (sortWeightsAsc (stackList.map (fun s => s.weight))).length := by
        rw [hwlen]; omega
      rw [List.getD_eq_getElem _ _ h1, List.getD_eq_getElem _ _ h2]
      exact List.Sorted.rel_get_of_lt
        (sorted_sortWeightsAsc (stackList.map (fun s => s.weight)))
        (Fin.mk_lt_mk.mpr (Nat.sub_lt hk Nat.one_pos))

/-- C7 witness: the odd clause at the three-stack input with k = 1 and
the even clause at the four-stack input with k = 2, where the median is
the upper-middle sorted weight. -/
theorem C7_amended_median_policy_witness :
    ((calculate_gas_distribution exThreeStacks).median_gas_per_stack =
      (sortWeightsAsc (exThreeStacks.map (fun s => s.weight))).getD 1 0) ∧
    ((calculate_gas_distribution exFourStacks).median_gas_per_stack =
      (sortWeightsAsc (exFourStacks.map (fun s => s.weight))).getD 2 0 ∧
     (sortWeightsAsc (exFourStacks.map (fun s => s.weight))).getD (2 - 1) 0 ≤
      (sortWeightsAsc (exFourStacks.map (fun s => s.weight))).getD 2 0) :=
  ⟨(C7_amended_median_policy exThreeStacks 1).2.1 (by decide),
   (C7_amended_median_policy exFourStacks 2).2.2 (by decide) (by decide)⟩

/-! ## C9 amended -/

/-- Keys after a setAssoc are old keys or the inserted key. -/
theorem keys_setAssoc {α : Type} (l : List (String × α)) (key : String) (a : α) (x : String)
    (hx : x ∈ (setAssoc l key a).map Prod.fst) : x ∈ l.map Prod.fst ∨ x = key := by
  induction l with
  | nil =>
      simp [setAssoc] at hx
      right
      exact hx
  | cons p rest ih =>
      obtain ⟨k, c⟩ := p
      unfold setAssoc at hx
      split at hx
      · rw [List.map_cons] at hx
        rcases List.mem_cons.mp hx with h | h
        · left
          rw [List.map_cons, h]
          exact List.mem_cons_self _ _
        · left
          rw [List.map_cons]
          exact List.mem_cons_of_mem _ h
      · rw [List.map_cons] at hx
        rcases List.mem_cons.mp hx with h | h
        · left
          rw [List.map_cons, h]
          exact List.mem_cons_self _ _
        · rcases ih h with h2 | h2
          · left
            rw [List.map_cons]
            exact List.mem_cons_of_mem _ h2
          · right
            exact h2

/-- A baseline insertion only ever adds the head of the inserted path as
a new child key of a node. -/
theorem childKeys_insert_baseline (n : DiffNode) (stack : List String) (v : Nat) (x : String)
    (hx : x ∈ (n.insert_baseline stack v).childKeys) :
    x ∈ n.childKeys ∨ stack.head? = some x := by
  cases n with
  | mk name b t children =>
    cases stack with
    | nil =>
        left
        exact hx
    | cons head tail =>
        unfold DiffNode.insert_baseline at hx
        rcases keys_setAssoc children head _ x hx with h | h
        · left
          exact h
        · right
          simp [h]

/-- A target insertion only ever adds the head of the inserted path as a
new child key of a node. -/
theorem childKeys_insert_target (n : DiffNode) (stack : List String) (v : Nat) (x : String)
    (hx : x ∈ (n.insert_target stack v).childKeys) :
    x ∈ n.childKeys ∨ stack.head? = some x := by
  cases n with
  | mk name b t children =>
    cases stack with
    | nil =>
        left
        exact hx
    | cons head tail =>
        unfold DiffNode.insert_target at hx
        rcases keys_setAssoc children head _ x hx with h | h
        · left
          exact h
        · right
          simp [h]

/-- Root child keys after the baseline insertion pass come from the
initial node or from the head of some processed path. -/
theorem childKeys_foldl_baseline (stacksL : List CollapsedStack) (n : DiffNode) (x : String)
    (hx : x ∈ (stacksL.foldl
        (fun r stack =>
          r.insert_baseline (strip_leading_root (splitChar ';' stack.stack)) stack.weight)
        n).childKeys) :
    x ∈ n.childKeys ∨
      ∃ s ∈ stacksL, (strip_leading_root (splitChar ';' s.stack)).head? = some x := by
  induction stacksL generalizing n with
  | nil =>
      left
      exact hx
  | cons s rest ih =>
      rw [List.foldl_cons] at hx
      rcases ih _ hx with h | h
      · rcases childKeys_insert_baseline _ _ _ _ h with h2 | h2
        · left
          exact h2
        · right
          exact ⟨s, by simp, h2⟩
      · right
        obtain ⟨s2, hs2, hh⟩ := h
        exact ⟨s2, by simp [hs2], hh⟩

/-- Root child keys after the target insertion pass come from the
initial node or from the head of some processed path. -/
theorem childKeys_foldl_target (stacksL : List CollapsedStack) (n : DiffNode) (x : String)
    (hx : x ∈ (stacksL.foldl
        (fun r stack =>
          r.insert_target (strip_leading_root (splitChar ';' stack.stack)) stack.weight)
        n).childKeys) :
    x ∈ n.childKeys ∨
      ∃ s ∈ stacksL, (strip_leading_root (splitChar ';' s.stack)).head? = some x := by
  induction stacksL generalizing n with
  | nil =>
      left
      exact hx
  | cons s rest ih =>
      rw [List.foldl_cons] at hx
      rcases ih _ hx with h | h
      · rcases childKeys_insert_target _ _ _ _ h with h2 | h2
        · left
          exact h2
        · right
          exact ⟨s, by simp, h2⟩
      · right
        obtain ⟨s2, hs2, hh⟩ := h
        exact ⟨s2, by simp [hs2], hh⟩

/-- C9 amended: only the two comparative insertion passes skip a single
leading root-label segment per path before insertion; provided the
stripped paths do not still begin with the root label, the merged diff
tree has no root-labeled child directly under the root.  The
single-profile pass performs no such skip, as the counterexample
shows. -/
theorem C9_amended_comparative_skip (baseline_stacks target_stacks : List CollapsedStack)
    (h : ∀ s ∈ baseline_stacks ++ target_stacks,
        (strip_leading_root (splitChar ';' s.stack)).head? ≠ some "root") :
    "root" ∉ (build_diff_flame_tree baseline_stacks target_stacks).childKeys := by
  intro habs
  unfold build_diff_flame_tree at habs
  rcases childKeys_foldl_target _ _ _ habs with h1 | h1
  · rcases childKeys_foldl_baseline _ _ _ h1 with h2 | h2
    · simp [DiffNode.new, DiffNode.childKeys] at h2
    · obtain ⟨s, hs, hh⟩ := h2
      exact h s (List.mem_append_left _ hs) hh
  · obtain ⟨s, hs, hh⟩ := h1
    exact h s (List.mem_append_right _ hs) hh

/-- C9 witness: with a baseline path root;foo and a target path bar the
hypothesis holds and the merged tree has no root-labeled child under the
root. -/
theorem C9_amended_comparative_skip_witness :
    (∀ s ∈ [exRootStack] ++ [exBarStack],
      (strip_leading_root (splitChar ';' s.stack)).head? ≠ some "root") ∧
    "root" ∉ (build_diff_flame_tree [exRootStack] [exBarStack]).childKeys :=
  ⟨by decide, C9_amended_comparative_skip [exRootStack] [exBarStack] (by decide)⟩

/-- A prefix sums to at most the full sum over Nat. -/
theorem sum_take_le (l : List Nat) (n : Nat) : (l.take n).sum ≤ l.sum := by
  induction l generalizing n with
  | nil => simp
  | cons x xs ih =>
      cases n with
      | zero => simp
      | succ m =>
          rw [List.take_succ_cons, List.sum_cons, List.sum_cons]
          exact Nat.add_le_add_left (ih m) x

/-- Sums the guarded percentage map: the percentages of a stack list sum
to the guarded percentage of its weight sum. -/
theorem pct_sum_stacks (l : List CollapsedStack) (S : Nat) :
    (l.map (fun s => if S > 0 then (s.weight : ℚ) / (S : ℚ) * 100 else 0)).sum =
      if S > 0 then ((((l.map (fun s => s.weight)).sum : ℕ) : ℚ) / (S : ℚ) * 100) else 0 := by
  induction l with
  | nil =>
      simp only [List.map_nil, List.sum_nil]
      split <;> simp
  | cons s rest ih =>
      simp only [List.map_cons, List.sum_cons, ih]
      by_cases hS : S > 0
      · simp only [if_pos hS]
        push_cast
        ring
      · simp [if_neg hS]

/-! ## C6 -/

/-- C6: for every non-empty stack list and every top_n, the hot paths are
exactly the first top_n entries of the input in order, each with
percentage equal to its weight over the sum of the weights of the full
input list times 100, and the returned percentages sum to at most
100. -/
theorem C6_hot_paths_spec (stackList : List CollapsedStack) (total_gas top_n : Nat)
    (h : stackList ≠ []) :
    ((calculate_hot_paths stackList total_gas top_n).map (fun hp => (hp.stack, hp.gas)) =
      (stackList.take top_n).map (fun s => (s.stack, s.weight))) ∧
    (∀ hp ∈ calculate_hot_paths stackList total_gas top_n,
      hp.percentage =
        (hp.gas : ℚ) / ((((stackList.map (fun s => s.weight)).sum : ℕ) : ℚ)) * 100) ∧
    ((calculate_hot_paths stackList total_gas top_n).map (fun hp => hp.percentage)).sum
      ≤ 100 := by
  refine ⟨?_, ?_, ?_⟩
  · rw [calculate_hot_paths, List.map_map]
    exact List.map_congr_left (fun s _ => rfl)
  · intro hp hmem
    rw [calculate_hot_paths] at hmem
    obtain ⟨s, hs, rfl⟩ := List.mem_map.mp hmem
    simp only [create_hot_path]
    by_cases hS : (stackList.map (fun s => s.weight)).sum > 0
    · rw [if_pos hS]
    · rw [if_neg hS]
      have h0 : (stackList.map (fun s => s.weight)).sum = 0 := by omega
      rw [h0]
      norm_num
  · have hrw : (calculate_hot_paths stackList total_gas top_n).map (fun hp => hp.percentage) =
        (stackList.take top_n).map
          (fun s =>
            if (stackList.map (fun s => s.weight)).sum > 0 then
              (s.weight : ℚ) / ((((stackList.map (fun s => s.weight)).sum : ℕ) : ℚ)) * 100
            else 0) := by
      rw [calculate_hot_paths, List.map_map]
      exact List.map_congr_left (fun s _ => rfl)
    rw [hrw, pct_sum_stacks]
    by_cases hS : (stackList.map (fun s => s.weight)).sum > 0
    · rw [if_pos hS]
      have hTS : ((stackList.take top_n).map (fun s => s.weight)).sum ≤
          (stackList.map (fun s => s.weight)).sum := by
        rw [List.map_take]
        exact sum_take_le (stackList.map (fun s => s.weight)) top_n
      have hSpos : (0 : ℚ) < ((((stackList.map (fun s => s.weight)).sum : ℕ)) : ℚ) := by
        exact_mod_cast hS
      calc ((((stackList.take top_n).map (fun s => s.weight)).sum : ℕ) : ℚ) /
              ((((stackList.map (fun s => s.weight)).sum : ℕ) : ℚ)) * 100
          ≤ ((((stackList.map (fun s => s.weight)).sum : ℕ) : ℚ)) /
              ((((stackList.map (fun s => s.weight)).sum : ℕ) : ℚ)) * 100 := by
            apply mul_le_mul_of_nonneg_right _ (by norm_num)
            apply (div_le_div_iff_of_pos_right hSpos).mpr
            exact_mod_cast hTS
        _ = 100 := by
            rw [div_self (ne_of_gt hSpos), one_mul]
    · rw [if_neg hS]
      norm_num

/-- C6 witness: the specification applied to the two-stack input with
top_n one. -/
theorem C6_hot_paths_spec_witness :
    ((calculate_hot_paths exTwoStacks 0 1).map (fun hp => (hp.stack, hp.gas)) =
      (exTwoStacks.take 1).map (fun s => (s.stack, s.weight))) ∧
    (∀ hp ∈ calculate_hot_paths exTwoStacks 0 1,
      hp.percentage =
        (hp.gas : ℚ) / ((((exTwoStacks.map (fun s => s.weight)).sum : ℕ) : ℚ)) * 100) ∧
    ((calculate_hot_paths exTwoStacks 0 1).map (fun hp => hp.percentage)).sum ≤ 100 :=
  C6_hot_paths_spec exTwoStacks 0 1 (by decide)

/-! ## C3 -/

/-- C3: diffing a profile against itself succeeds (never a compatibility
error), always attaches the identical-profiles warning, and yields
all-zero deltas: zero gas changes, zero HostIO total-call and gas
changes, zero delta in every per-category entry, zero per-path changes on
every common path, and no baseline-only or target-only hot paths. -/
theorem C3_self_diff_all_zero (p : Profile) (now : String) :
    ∃ report, generate_diff p p now = .ok report ∧
      report.summary.warning = some "Baseline and target profiles are identical" ∧
      report.deltas.gas.absolute_change = 0 ∧
      report.deltas.gas.percent_change = 0 ∧
      report.deltas.hostio.total_calls_change = 0 ∧
      report.deltas.hostio.total_calls_percent_change = 0 ∧
      report.deltas.hostio.gas_change = 0 ∧
      report.deltas.hostio.gas_percent_change = 0 ∧
      (∀ entry ∈ report.deltas.hostio.by_type_changes, entry.2.delta = 0) ∧
      (∀ comparison ∈ report.deltas.hot_paths.common_paths,
        comparison.gas_change = 0 ∧ comparison.percent_change = 0) ∧
      report.deltas.hot_paths.baseline_only = [] ∧
      report.deltas.hot_paths.target_only = [] := by
  have hc : check_compatibility p p = .ok () := by
    unfold check_compatibility
    rw [if_neg (by simp)]
  have hgen : generate_diff p p now = .ok
      { diff_version := "1.0.0"
        generated_at := now
        baseline :=
          { transaction_hash := p.transaction_hash
            total_gas := p.total_gas
            generated_at := p.generated_at }
        target :=
          { transaction_hash := p.transaction_hash
            total_gas := p.total_gas
            generated_at := p.generated_at }
        deltas :=
          { gas := calculate_gas_delta p.total_gas p.total_gas
            hostio := calculate_hostio_delta p.hostio_summary p.hostio_summary
            hot_paths := compare_hot_paths p.hot_paths p.hot_paths }
        threshold_violations := []
        insights := []
        summary :=
          { has_regressions := false
            violation_count := 0
            status := "PASSED"
            warning :=
              if are_profiles_identical p p then
                some "Baseline and target profiles are identical"
              else
                none } } := by
    unfold generate_diff
    rw [hc]
  refine ⟨_, hgen, ?_, ?_, ?_, ?_, ?_, ?_, ?_, ?_, ?_, ?_, ?_⟩
  · show (if are_profiles_identical p p then
        some "Baseline and target profiles are identical" else none) =
      some "Baseline and target profiles are identical"
    rw [if_pos]
    unfold are_profiles_identical
    simp
  · show (calculate_gas_delta p.total_gas p.total_gas).absolute_change = 0
    simp [calculate_gas_delta]
  · show (calculate_gas_delta p.total_gas p.total_gas).percent_change = 0
    simp [calculate_gas_delta, safe_percentage_zero]
  · show (calculate_hostio_delta p.hostio_summary p.hostio_summary).total_calls_change = 0
    simp [calculate_hostio_delta]
  · show (calculate_hostio_delta p.hostio_summary
        p.hostio_summary).total_calls_percent_change = 0
    simp [calculate_hostio_delta, safe_percentage_zero]
  · show (calculate_hostio_delta p.hostio_summary p.hostio_summary).gas_change = 0
    simp [calculate_hostio_delta]
  · show (calculate_hostio_delta p.hostio_summary p.hostio_summary).gas_percent_change = 0
    simp [calculate_hostio_delta, safe_percentage_zero]
  · intro entry hmem
    have hmem2 : entry ∈ calculate_hostio_type_changes p.hostio_summary.by_type
        p.hostio_summary.by_type := hmem
    unfold calculate_hostio_type_changes at hmem2
    obtain ⟨key, hkey, heq⟩ := List.mem_filterMap.mp hmem2
    dsimp only at heq
    split at heq
    · obtain rfl := Option.some.inj heq
      simp
    · exact absurd heq (by simp)
  · intro comparison hmem
    have hmem2 : comparison ∈ (compare_hot_paths p.hot_paths p.hot_paths).common_paths :=
      hmem
    unfold compare_hot_paths at hmem2
    obtain ⟨s, hs, heq⟩ := List.mem_filterMap.mp hmem2
    cases hl : lookupLastPath p.hot_paths s with
    | none =>
        rw [hl] at heq
        exact absurd heq (by simp)
    | some bp =>
        rw [hl] at heq
        obtain rfl := Option.some.inj heq
        constructor
        · simp
        · show safe_percentage ((bp.gas : Int) - (bp.gas : Int)) bp.gas = 0
          rw [sub_self]
          exact safe_percentage_zero bp.gas
  · show (compare_hot_paths p.hot_paths p.hot_paths).baseline_only = []
    unfold compare_hot_paths
    rw [List.filter_eq_nil_iff]
    intro hp hmem
    simp only [Bool.not_eq_true, Option.isNone_eq_false_iff]
    rw [Option.isSome_iff_ne_none]
    intro hnone
    unfold lookupLastPath at hnone
    have := List.find?_eq_none.mp hnone hp (List.mem_reverse.mpr hmem)
    simp at this
  · show (compare_hot_paths p.hot_paths p.hot_paths).target_only = []
    unfold compare_hot_paths
    rw [List.filter_eq_nil_iff]
    intro hp hmem
    simp only [Bool.not_eq_true, Option.isNone_eq_false_iff]
    rw [Option.isSome_iff_ne_none]
    intro hnone
    unfold lookupLastPath at hnone
    have := List.find?_eq_none.mp hnone hp (List.mem_reverse.mpr hmem)
    simp at this

/-- C3 witness: the self-diff specification applied to a concrete
profile. -/
theorem C3_self_diff_all_zero_witness :
    ∃ report, generate_diff exProfileV1 exProfileV1 "t0" = .ok report ∧
      report.summary.warning = some "Baseline and target profiles are identical" ∧
      report.deltas.gas.absolute_change = 0 ∧
      report.deltas.gas.percent_change = 0 ∧
      report.deltas.hostio.total_calls_change = 0 ∧
      report.deltas.hostio.total_calls_percent_change = 0 ∧
      report.deltas.hostio.gas_change = 0 ∧
      report.deltas.hostio.gas_percent_change = 0 ∧
      (∀ entry ∈ report.deltas.hostio.by_type_changes, entry.2.delta = 0) ∧
      (∀ comparison ∈ report.deltas.hot_paths.common_paths,
        comparison.gas_change = 0 ∧ comparison.percent_change = 0) ∧
      report.deltas.hot_paths.baseline_only = [] ∧
      report.deltas.hot_paths.target_only = [] :=
  C3_self_diff_all_zero exProfileV1 "t0"

/-! ## C2 -/

/-- Every gas violation carries the error severity. -/
theorem severity_check_gas (gas_delta : GasDelta) (thresholds : GasThresholds) :
    ∀ v ∈ check_gas_thresholds gas_delta thresholds, v.severity = "error" := by
  intro v hv
  unfold check_gas_thresholds at hv
  rcases List.mem_append.mp hv with h | h
  · split at h
    · split at h
      · rw [List.mem_singleton] at h
        rw [h]
      · exact absurd h (List.not_mem_nil v)
    · exact absurd h (List.not_mem_nil v)
  · split at h
    · split at h
      · rw [List.mem_singleton] at h
        rw [h]
      · exact absurd h (List.not_mem_nil v)
    · exact absurd h (List.not_mem_nil v)

/-- Every HostIO violation carries the error severity. -/
theorem severity_check_hostio (hostio_delta : HostIoDelta) (thresholds : HostIOThresholds) :
    ∀ v ∈ check_hostio_thresholds hostio_delta thresholds, v.severity = "error" := by
  intro v hv
  unfold check_hostio_thresholds at hv
  rcases List.mem_append.mp hv with h | h
  · split at h
    · split at h
      · rw [List.mem_singleton] at h
        rw [h]
      · exact absurd h (List.not_mem_nil v)
    · exact absurd h (List.not_mem_nil v)
  · split at h
    · obtain ⟨entry, hentry, heq⟩ := List.mem_filterMap.mp h
      dsimp only at heq
      split at heq
      · split at heq
        · obtain rfl := Option.some.inj heq
          rfl
        · exact absurd heq (by simp)
      · exact absurd heq (by simp)
    · exact absurd h (List.not_mem_nil v)

/-- Every hot-path violation carries the warning severity. -/
theorem severity_check_hot_paths (hot_paths_delta : HotPathsDelta)
    (thresholds : HotPathThresholds) :
    ∀ v ∈ check_hot_path_thresholds hot_paths_delta thresholds, v.severity = "warning" := by
  intro v hv
  unfold check_hot_path_thresholds at hv
  split at hv
  · obtain ⟨comparison, hcmp, heq⟩ := List.mem_filterMap.mp hv
    split at heq
    · obtain rfl := Option.some.inj heq
      rfl
    · exact absurd heq (by simp)
  · exact absurd hv (List.not_mem_nil v)

/-- Every violation produced by check_thresholds has error or warning
severity. -/
theorem check_thresholds_severities (diff : DiffReport) (config : ThresholdConfig) :
    ∀ v ∈ (check_thresholds diff config).2,
      v.severity = "error" ∨ v.severity = "warning" := by
  intro v hv
  have hv2 : v ∈ (check_gas_thresholds diff.deltas.gas config.gas ++
      check_hostio_thresholds diff.deltas.hostio config.hostio) ++
      (match config.hot_paths with
       | some hp_thresholds => check_hot_path_thresholds diff.deltas.hot_paths hp_thresholds
       | none => []) := hv
  rcases List.mem_append.mp hv2 with h | h
  · rcases List.mem_append.mp h with h2 | h2
    · left
      exact severity_check_gas _ _ v h2
    · left
      exact severity_check_hostio _ _ v h2
  · cases hhp : config.hot_paths with
    | none =>
        rw [hhp] at h
        exact absurd h (List.not_mem_nil v)
    | some hp_thresholds =>
        rw [hhp] at h
        right
        exact severity_check_hot_paths _ _ v h

/-- Characterizes the summary built from a violation list whose members
all carry error or warning severity: FAILED exactly when an error exists,
WARNING exactly when no error but some warning exists, PASSED exactly
when there is no violation at all, and has_regressions exactly when an
error exists. -/
theorem create_summary_spec (violations : List ThresholdViolation)
    (hsev : ∀ v ∈ violations, v.severity = "error" ∨ v.severity = "warning") :
    ((create_summary violations).status = "FAILED" ↔
      ∃ v ∈ violations, v.severity = "error") ∧
    ((create_summary violations).status = "WARNING" ↔
      ((¬ ∃ v ∈ violations, v.severity = "error") ∧
        ∃ v ∈ violations, v.severity = "warning")) ∧
    ((create_summary violations).status = "PASSED" ↔ violations = []) ∧
    ((create_summary violations).has_regressions = true ↔
      ∃ v ∈ violations, v.severity = "error") := by
  have herr : 0 < (violations.filter (fun v => v.severity == "error")).length ↔
      ∃ v ∈ violations, v.severity = "error" := by
    rw [List.length_pos]
    constructor
    · intro hne
      obtain ⟨v, hvmem⟩ := List.exists_mem_of_ne_nil _ hne
      have hvf := List.mem_filter.mp hvmem
      exact ⟨v, hvf.1, by simpa using hvf.2⟩
    · rintro ⟨v, hv, hs⟩
      intro habs
      have : v ∈ violations.filter (fun v => v.severity == "error") :=
        List.mem_filter.mpr ⟨hv, by simp [hs]⟩
      rw [habs] at this
      exact absurd this (List.not_mem_nil v)
  have hwarn : 0 < (violations.filter (fun v => v.severity == "warning")).length ↔
      ∃ v ∈ violations, v.severity = "warning" := by
    rw [List.length_pos]
    constructor
    · intro hne
      obtain ⟨v, hvmem⟩ := List.exists_mem_of_ne_nil _ hne
      have hvf := List.mem_filter.mp hvmem
      exact ⟨v, hvf.1, by simpa using hvf.2⟩
    · rintro ⟨v, hv, hs⟩
      intro habs
      have : v ∈ violations.filter (fun v => v.severity == "warning") :=
        List.mem_filter.mpr ⟨hv, by simp [hs]⟩
      rw [habs] at this
      exact absurd this (List.not_mem_nil v)
  by_cases hE : 0 < (violations.filter (fun v => v.severity == "error")).length
  · have hstat : (create_summary violations).status = "FAILED" := by
      unfold create_summary
      dsimp only
      rw [if_pos hE]
    have hreg : (create_summary violations).has_regressions = true := by
      unfold create_summary
      dsimp only
      exact decide_eq_true hE
    refine ⟨?_, ?_, ?_, ?_⟩
    · rw [hstat]
      exact iff_of_true rfl (herr.mp hE)
    · rw [hstat]
      exact iff_of_false (by decide) (fun hc => hc.1 (herr.mp hE))
    · rw [hstat]
      refine iff_of_false (by decide) (fun habs => ?_)
      rw [habs] at hE
      simp at hE
    · rw [hreg]
      exact iff_of_true rfl (herr.mp hE)
  · by_cases hW : 0 < (violations.filter (fun v => v.severity == "warning")).length
    · have hstat : (create_summary violations).status = "WARNING" := by
        unfold create_summary
        dsimp only
        rw [if_neg hE, if_pos hW]
      have hreg : (create_summary violations).has_regressions = false := by
        unfold create_summary
        dsimp only
        exact decide_eq_false hE
      refine ⟨?_, ?_, ?_, ?_⟩
      · rw [hstat]
        exact iff_of_false (by decide) (fun hex => hE (herr.mpr hex))
      · rw [hstat]
        exact iff_of_true rfl ⟨fun hex => hE (herr.mpr hex), hwarn.mp hW⟩
      · rw [hstat]
        refine iff_of_false (by decide) (fun habs => ?_)
        rw [habs] at hW
        simp at hW
      · rw [hreg]
        exact iff_of_false (by simp) (fun hex => hE (herr.mpr hex))
    · have hnil : violations = [] := by
        cases hv : violations with
        | nil => rfl
        | cons v vs =>
            exfalso
            have hmem : v ∈ violations := by
              rw [hv]
              exact List.mem_cons_self v vs
            rcases hsev v hmem with h | h
            · exact hE (herr.mpr ⟨v, hmem, h⟩)
            · exact hW (hwarn.mpr ⟨v, hmem, h⟩)
      have hstat : (create_summary violations).status = "PASSED" := by
        unfold create_summary
        dsimp only
        rw [if_neg hE, if_neg hW]
      have hreg : (create_summary violations).has_regressions = false := by
        unfold create_summary
        dsimp only
        exact decide_eq_false hE
      refine ⟨?_, ?_, ?_, ?_⟩
      · rw [hstat]
        exact iff_of_false (by decide) (fun hex => hE (herr.mpr hex))
      · rw [hstat]
        exact iff_of_false (by decide) (fun hc => hW (hwarn.mpr hc.2))
      · rw [hstat]
        exact iff_of_true rfl hnil
      · rw [hreg]
        exact iff_of_false (by simp) (fun hex => hE (herr.mpr hex))

/-- C2: after check_thresholds the summary status is FAILED exactly when
some error-severity violation exists, WARNING exactly when there is no
error-severity violation but some warning-severity one, PASSED exactly
when there is no violation, and has_regressions holds exactly when some
error-severity violation exists — warnings alone never set it. -/
theorem C2_threshold_status (diff : DiffReport) (config : ThresholdConfig) :
    (((check_thresholds diff config).1).summary.status = "FAILED" ↔
      ∃ v ∈ (check_thresholds diff config).2, v.severity = "error") ∧
    (((check_thresholds diff config).1).summary.status = "WARNING" ↔
      ((¬ ∃ v ∈ (check_thresholds diff config).2, v.severity = "error") ∧
        ∃ v ∈ (check_thresholds diff config).2, v.severity = "warning")) ∧
    (((check_thresholds diff config).1).summary.status = "PASSED" ↔
      (check_thresholds diff config).2 = []) ∧
    (((check_thresholds diff config).1).summary.has_regressions = true ↔
      ∃ v ∈ (check_thresholds diff config).2, v.severity = "error") :=
  create_summary_spec ((check_thresholds diff config).2)
    (check_thresholds_severities diff config)

/-- C2 witness: the status characterization applied to a concrete report
and configuration. -/
theorem C2_threshold_status_witness :
    ((check_thresholds exDiffReport exThresholdConfig).1).summary.status = "FAILED" ↔
      ∃ v ∈ (check_thresholds exDiffReport exThresholdConfig).2, v.severity = "error" :=
  (C2_threshold_status exDiffReport exThresholdConfig).1

end StylusTrace
